import Mathlib

set_option maxHeartbeats 1000000
set_option maxRecDepth 100000

/-!
Shallow embedding of the core of the `game-of-life` repository: the `Cell`
class and the `GameOfLife` engine (`src/unnamed/part_002`), the `Grid` class
(`src/src/game/Grid.js`), the heat computations of the
`ThermalFieldRenderer` (`src/unnamed/part_001`), and the frame throttle of
`Renderer.render` (`src/src/rendering/Renderer.js`).

Modelling conventions: JavaScript numbers are modelled as `ℚ` (every
constant involved — 0.08, 0.95, 0.8, 33.33 — is an exact decimal), array
indices as `ℕ`, and signed grid coordinates as `ℤ`.  In-place mutation of
cells and fields is modelled by explicit state passing: a grid is a value,
and mutating the cell object `cells[y][x]` is modelled by producing a grid
whose `cells` function is overridden at `(y, x)` (the `Grid` exclusively
owns its cells — there is no external aliasing in the source).
-/

/-- The `Cell` class (src/unnamed/part_002, lines 385-495): fields
`_alive`, `_age`, `_nextState`. -/
structure Cell where
  alive : Bool
  age : ℕ
  nextState : Bool
  deriving DecidableEq

/-- `new Cell(alive)`: `_age = alive ? 1 : 0`, `_nextState = false`. -/
def Cell.init (alive : Bool) : Cell :=
  ⟨alive, if alive then 1 else 0, false⟩

/-- `Cell.setNextState(alive)`: assigns `_nextState` only. -/
def Cell.setNextState (c : Cell) (b : Bool) : Cell :=
  { c with nextState := b }

/-- `Cell.update()` (lines 424-437): `_alive = _nextState`; the age becomes
`age + 1` if the cell stays alive, `1` on a birth, `0` when dead.
`_nextState` is left as it is. -/
def Cell.update (c : Cell) : Cell :=
  { c with alive := c.nextState,
           age := if c.nextState then (if c.alive then c.age + 1 else 1) else 0 }

/-- `Cell.setState(alive)` (lines 442-446): sets `_alive` and `_nextState`
to `alive` and `_age` to `alive ? 1 : 0`, ignoring the previous state. -/
def Cell.setState (_c : Cell) (alive : Bool) : Cell :=
  ⟨alive, if alive then 1 else 0, alive⟩

/-- `Cell.toggle()`: `setState(!_alive)`. -/
def Cell.toggle (c : Cell) : Cell :=
  c.setState (!c.alive)

/-- `Cell.reset()`: dead, age 0, next state false. -/
def Cell.reset (_c : Cell) : Cell :=
  ⟨false, 0, false⟩

/-- `Cell.isNewborn()` (lines 475-477): `_alive && _age === 1`. -/
def Cell.isNewborn (c : Cell) : Bool :=
  c.alive && c.age == 1

/-- One generation in which the rule keeps the cell alive: the engine sets
`_nextState = true` and then commits with `update()`, exactly as
`applyRules` does for a surviving or newly-born cell. -/
def Cell.aliveGeneration (c : Cell) : Cell :=
  (c.setNextState true).update

/-- The `Grid` class (src/src/game/Grid.js): `width`, `height` and the
dense row-major array `cells[y][x]`.  The array is modelled as a total
function; only indices inside `[0,height)×[0,width)` are ever observed
through `getCell`, which bounds-checks first. -/
structure Grid where
  width : ℕ
  height : ℕ
  cells : ℕ → ℕ → Cell

/-- `Grid.getCell(x, y)` (lines 30-35): `null` (here `none`) outside
`[0,width)×[0,height)`, otherwise `cells[y][x]`. -/
def Grid.getCell (g : Grid) (x y : ℤ) : Option Cell :=
  if x < 0 ∨ (g.width : ℤ) ≤ x ∨ y < 0 ∨ (g.height : ℤ) ≤ y then none
  else some (g.cells y.toNat x.toNat)

/-- In-place mutation of the cell object stored at `cells[y][x]`,
modelled as a function override (the grid owns its cells exclusively). -/
def Grid.setCell (g : Grid) (x y : ℕ) (c : Cell) : Grid :=
  { g with cells := fun y' x' => if y' = y ∧ x' = x then c else g.cells y' x' }

/-- `Grid.setCellState(x, y, alive)` (lines 40-45): fetches the cell with
`getCell` and calls `setState` on it when present; no-op otherwise. -/
def Grid.setCellState (g : Grid) (x y : ℤ) (alive : Bool) : Grid :=
  match g.getCell x y with
  | none => g
  | some c => g.setCell x.toNat y.toNat (c.setState alive)

/-- `Grid.toggleCell(x, y)` (lines 50-55). -/
def Grid.toggleCell (g : Grid) (x y : ℤ) : Grid :=
  match g.getCell x y with
  | none => g
  | some c => g.setCell x.toNat y.toNat c.toggle

/-- The test `neighbor && neighbor.alive` from `getLivingNeighborCount`. -/
def Grid.aliveAt (g : Grid) (x y : ℤ) : Bool :=
  match g.getCell x y with
  | some c => c.alive
  | none => false

/-- The eight `(dx, dy)` offsets visited by the nested loops of
`getLivingNeighborCount` (lines 60-77): `dy` is the outer loop, `dx` the
inner one, and `(0, 0)` is skipped. -/
def neighborOffsets : List (ℤ × ℤ) :=
  [(-1, -1), (0, -1), (1, -1), (-1, 0), (1, 0), (-1, 1), (0, 1), (1, 1)]

/-- `Grid.getLivingNeighborCount(x, y)` (lines 60-77): counts the offsets
whose neighbor exists and is alive. -/
def Grid.getLivingNeighborCount (g : Grid) (x y : ℤ) : ℕ :=
  neighborOffsets.countP (fun d => g.aliveAt (x + d.1) (y + d.2))

/-- `Grid.loadPattern(pattern, startX, startY)` (lines 157-168): nested
index loops over the pattern matrix; rows and entries are read by index
(modelled with `getD`, matching the in-range accesses of the source), and
each target inside the grid is written with `setCellState`. -/
def Grid.loadPattern (g : Grid) (pattern : List (List Bool)) (startX startY : ℤ) : Grid :=
  (List.range pattern.length).foldl (fun g1 (y : ℕ) =>
    (List.range (pattern.getD y []).length).foldl (fun g2 (x : ℕ) =>
      let gridX := startX + (x : ℤ)
      let gridY := startY + (y : ℤ)
      if 0 ≤ gridX ∧ gridX < (g2.width : ℤ) ∧ 0 ≤ gridY ∧ gridY < (g2.height : ℤ) then
        g2.setCellState gridX gridY ((pattern.getD y []).getD x false)
      else g2) g1) g

/-- `Grid.randomize(probability)` (lines 107-114): every cell is
`setState`d.  The draw `Math.random() < probability` for the cell at
`(x, y)` is modelled by an oracle `rand y x`. -/
def Grid.randomize (g : Grid) (rand : ℕ → ℕ → Bool) : Grid :=
  (List.range g.height).foldl (fun g1 y =>
    (List.range g1.width).foldl (fun g2 x =>
      g2.setCell x y ((g2.cells y x).setState (rand y x))) g1) g

/-- The `GameOfLife` engine state (src/unnamed/part_002, lines 61-132)
restricted to the fields `applyRules` acts on: the grid, the generation
counter and `cellStateChanges = { births, deaths }`.  The timer, speed and
callback/audio fields do not influence the state transition. -/
structure GameOfLife where
  grid : Grid
  generation : ℕ
  births : List (ℕ × ℕ)
  deaths : List (ℕ × ℕ)

/-- The next-state expression of the compute phase of `applyRules`
(lines 86-98): survive on 2 or 3 neighbors, birth on exactly 3, evaluated
entirely on the grid `g`. -/
def conwayNext (g : Grid) (p : ℕ × ℕ) : Bool :=
  let n := g.getLivingNeighborCount p.1 p.2
  if (g.cells p.2 p.1).alive then n == 2 || n == 3 else n == 3

/-- One iteration of the compute phase of `applyRules` (lines 81-102):
fetch the cell, count living neighbors in the current grid, store the
decision with `setNextState`. -/
def phase1Step (g : Grid) (p : ℕ × ℕ) : Grid :=
  match g.getCell p.1 p.2 with
  | none => g
  | some cell =>
    let n := g.getLivingNeighborCount p.1 p.2
    let next := if cell.alive then n == 2 || n == 3 else n == 3
    g.setCell p.1 p.2 (cell.setNextState next)

/-- One iteration of the commit phase of `applyRules` (lines 108-124):
`cell.update()`, then push the coordinate onto `births` on a dead→alive
flip and onto `deaths` on an alive→dead flip. -/
def phase2Step (acc : Grid × List (ℕ × ℕ) × List (ℕ × ℕ)) (p : ℕ × ℕ) :
    Grid × List (ℕ × ℕ) × List (ℕ × ℕ) :=
  match acc.1.getCell p.1 p.2 with
  | none => acc
  | some cell =>
    let c := cell.update
    let g := acc.1.setCell p.1 p.2 c
    if !cell.alive && c.alive then (g, acc.2.1 ++ [p], acc.2.2)
    else if cell.alive && !c.alive then (g, acc.2.1, acc.2.2 ++ [p])
    else (g, acc.2.1, acc.2.2)

/-- `GameOfLife.applyRules()` (lines 77-132): compute phase over all cells
in row-major order, reset of `cellStateChanges`, commit phase over all
cells in row-major order, then `generation++`.  The audio hook
(`playAudioForChanges`) only emits sound and does not touch this state. -/
def GameOfLife.applyRules (gol : GameOfLife) : GameOfLife :=
  let w := gol.grid.width
  let h := gol.grid.height
  let g1 := (List.range h).foldl
    (fun g y => (List.range w).foldl (fun g' x => phase1Step g' (x, y)) g) gol.grid
  let r := (List.range h).foldl
    (fun acc y => (List.range w).foldl (fun acc' x => phase2Step acc' (x, y)) acc)
    (g1, ([] : List (ℕ × ℕ)), ([] : List (ℕ × ℕ)))
  { grid := r.1, generation := gol.generation + 1, births := r.2.1, deaths := r.2.2 }

/-- The traversal order of the nested `for (y) for (x)` loops of
`applyRules`: all grid coordinates `(x, y)` in row-major order. -/
def rowMajorIndices (w h : ℕ) : List (ℕ × ℕ) :=
  (List.range h).flatMap fun y => (List.range w).map fun x => (x, y)

/-- `ThermalFieldRenderer.calculateCellHeat(cell)` (src/unnamed/part_001,
lines 157-171): base 1.0, age bonus `Math.min(cell.age / 20, 0.5)`, a flat
0.8 for a newborn, clamped by `Math.min(heat, 2.0)`. -/
def calculateCellHeat (cell : Cell) : ℚ :=
  let heat : ℚ := 1
  let ageBonus : ℚ := min ((cell.age : ℚ) / 20) (1 / 2)
  let heat := heat + ageBonus
  let heat := if cell.isNewborn then heat + 4 / 5 else heat
  min heat 2

/-- The per-cell heat formula exactly as claim C1 states it: base 1.0,
plus an age bonus of 0.5 scaled by `min(age/20, 1)`, plus a flat 0.8
newborn bonus, clamped to 2.0. -/
def claimedCellHeat (c : Cell) : ℚ :=
  min (1 + (1 / 2) * min ((c.age : ℚ) / 20) 1 + (if c.isNewborn then 4 / 5 else 0)) 2

/-- `ThermalFieldRenderer.applyThermalDiffusion(field, width, height)`
(lines 176-204), with the settings `heatDiffusion` and `temperatureDecay`
as parameters (defaults 0.08 and 0.95).  The source allocates a
zero-initialized `newField`, writes
`(center + diffusion * laplacian) * decay` at every interior index
`idx = y*width + x` with `1 ≤ y < height-1`, `1 ≤ x < width-1`, and then
copies `newField` back over the whole field.  Each index is written at
most once, so the loop pair is rendered pointwise: position `i`
decomposes as `y = i / width`, `x = i % width` (which inverts
`idx = y*width + x` for every in-range index), holds the diffused value
when interior and the initial value 0 of `newField` otherwise. -/
def applyThermalDiffusion (field : List ℚ) (width height : ℕ)
    (diffusion decay : ℚ) : List ℚ :=
  List.ofFn fun i : Fin field.length =>
    let y := (i : ℕ) / width
    let x := (i : ℕ) % width
    if 1 ≤ y ∧ y + 1 < height ∧ 1 ≤ x ∧ x + 1 < width then
      let center := field.getD (y * width + x) 0
      let north := field.getD ((y - 1) * width + x) 0
      let south := field.getD ((y + 1) * width + x) 0
      let east := field.getD (y * width + (x + 1)) 0
      let west := field.getD (y * width + (x - 1)) 0
      (center + diffusion * (north + south + east + west - 4 * center)) * decay
    else 0

/-- State of `Renderer` (src/src/rendering/Renderer.js) relevant to the
frame throttle of `render` (lines 39-69): `lastFrameTime` (initialized to
0 in the constructor) and, as an abstraction of all canvas side effects of
a completed draw, the list of timestamps at which draws completed. -/
structure RendererState where
  lastFrameTime : ℚ
  draws : List ℚ
  deriving DecidableEq

/-- `Renderer.render(grid, currentTime)`: returns unchanged (skipping all
drawing) when `currentTime - lastFrameTime < 33.33`; otherwise records the
frame time and performs the draw. -/
def Renderer.render (s : RendererState) (currentTime : ℚ) : RendererState :=
  if currentTime - s.lastFrameTime < 3333 / 100 then s
  else { lastFrameTime := currentTime, draws := s.draws ++ [currentTime] }

/-- `Renderer` state right after construction: `lastFrameTime = 0`, no
draw has happened. -/
def rendererInit : RendererState := ⟨0, []⟩

/-- The Moore neighborhood as claim C6 describes it: the set of the eight
offsets `{-1,0,1} × {-1,0,1}` minus the center `(0,0)`. -/
def mooreOffsets : Finset (ℤ × ℤ) :=
  (({-1, 0, 1} : Finset ℤ) ×ˢ ({-1, 0, 1} : Finset ℤ)).erase (0, 0)

/-- The living-neighbor count as claim C6 states it: the number of Moore
offsets (excluding the cell itself) whose neighbor is present and alive,
off-grid neighbors counting as dead via `getCell = none`. -/
def specNeighborCount (g : Grid) (x y : ℤ) : ℕ :=
  (mooreOffsets.filter (fun d => g.aliveAt (x + d.1) (y + d.2) = true)).card

/-- A dead cell as stored by `createEmptyGrid`. -/
def deadCell : Cell := ⟨false, 0, false⟩

/-- 3×3 grid whose only living cell is at `(0, 0)` (claim C6's example). -/
def cornerGrid : Grid :=
  ⟨3, 3, fun y x => if y = 0 ∧ x = 0 then ⟨true, 1, false⟩ else deadCell⟩

/-- 3×3 engine state holding a horizontal blinker in row `y = 1`. -/
def blinkerGol : GameOfLife :=
  ⟨⟨3, 3, fun y _x => if y = 1 then ⟨true, 1, false⟩ else deadCell⟩, 0, [], []⟩

/-- 2×2 grid with a single long-lived cell (age 7) at `(0, 0)`. -/
def agedGrid : Grid :=
  ⟨2, 2, fun y x => if y = 0 ∧ x = 0 then ⟨true, 7, true⟩ else deadCell⟩

/-- A 3×3 thermal field holding constant temperature 1. -/
def onesField : List ℚ := List.replicate 9 1

/-! ### Cell-level lemmas -/

/-- Keeping a dead cell alive for `N` scheduled generations gives age
exactly `N`. -/
theorem aliveGeneration_iterate_age (N : ℕ) :
    ∀ c : Cell, c.alive = false → 1 ≤ N →
      (Cell.aliveGeneration^[N] c).age = N ∧
      (Cell.aliveGeneration^[N] c).alive = true := by
  induction N with
  | zero => intro c _ h1; omega
  | succ n ih =>
    intro c hc _
    rcases Nat.eq_zero_or_pos n with hn | hn
    · subst hn
      simp [Cell.aliveGeneration, Cell.setNextState, Cell.update, hc]
    · obtain ⟨ha, hb⟩ := ih c hc hn
      rw [Function.iterate_succ_apply']
      simp [Cell.aliveGeneration, Cell.setNextState, Cell.update, ha, hb]

/-- C5: after construction, `update`, `setState`, `toggle` and `reset`,
`age == 0` iff the cell is not alive; `update` increments the age of a
surviving cell, sets it to 1 on a birth and to 0 on a death; and `N`
consecutive alive generations starting from a dead cell give age `N`. -/
theorem cell_age_invariant (c : Cell) (b : Bool) (N : ℕ) :
    ((Cell.init b).age = 0 ↔ (Cell.init b).alive = false) ∧
    (c.update.age = 0 ↔ c.update.alive = false) ∧
    ((c.setState b).age = 0 ↔ (c.setState b).alive = false) ∧
    (c.toggle.age = 0 ↔ c.toggle.alive = false) ∧
    (c.reset.age = 0 ↔ c.reset.alive = false) ∧
    (c.alive = true → c.nextState = true → c.update.age = c.age + 1) ∧
    (c.alive = false → c.nextState = true → c.update.age = 1) ∧
    (c.nextState = false → c.update.age = 0) ∧
    (c.alive = false → 1 ≤ N → (Cell.aliveGeneration^[N] c).age = N) := by
  refine ⟨?_, ?_, ?_, ?_, ?_, ?_, ?_, ?_, ?_⟩
  · cases b <;> simp [Cell.init]
  · rcases c with ⟨a, g, n⟩
    cases a <;> cases n <;> simp [Cell.update]
  · cases b <;> simp [Cell.setState]
  · rcases c with ⟨a, g, n⟩
    cases a <;> simp [Cell.toggle, Cell.setState]
  · simp [Cell.reset]
  · intro h1 h2; simp [Cell.update, h1, h2]
  · intro h1 h2; simp [Cell.update, h1, h2]
  · intro h1; simp [Cell.update, h1]
  · intro h1 h2; exact (aliveGeneration_iterate_age N c h1 h2).1

/-- Witness for C5 at concrete cells: survival `3 → 4`, birth `→ 1`,
death `→ 0`, and a four-generation run from a dead cell. -/
theorem cell_age_invariant_witness :
    ((⟨true, 3, true⟩ : Cell).alive = true ∧
     (⟨true, 3, true⟩ : Cell).nextState = true ∧
     (Cell.update ⟨true, 3, true⟩).age = 3 + 1) ∧
    ((⟨false, 0, true⟩ : Cell).alive = false ∧
     (Cell.update ⟨false, 0, true⟩).age = 1) ∧
    ((⟨true, 5, false⟩ : Cell).nextState = false ∧
     (Cell.update ⟨true, 5, false⟩).age = 0) ∧
    ((⟨false, 0, false⟩ : Cell).alive = false ∧ 1 ≤ 4 ∧
     (Cell.aliveGeneration^[4] (⟨false, 0, false⟩ : Cell)).age = 4) := by
  refine ⟨⟨rfl, rfl, ?_⟩, ⟨rfl, ?_⟩, ⟨rfl, ?_⟩, ⟨rfl, by norm_num, ?_⟩⟩
  · exact (cell_age_invariant ⟨true, 3, true⟩ true 4).2.2.2.2.2.1 rfl rfl
  · exact (cell_age_invariant ⟨false, 0, true⟩ true 4).2.2.2.2.2.2.1 rfl rfl
  · exact (cell_age_invariant ⟨true, 5, false⟩ true 4).2.2.2.2.2.2.2.1 rfl
  · exact (cell_age_invariant ⟨false, 0, false⟩ true 4).2.2.2.2.2.2.2.2 rfl
      (by norm_num)

/-- C9: for a living cell the heat lies in `[1, 1.85]`, so the clamp at
2.0 is never attained. -/
theorem calculateCellHeat_range (c : Cell) (h : c.alive = true) :
    1 ≤ calculateCellHeat c ∧ calculateCellHeat c ≤ 37 / 20 ∧
      calculateCellHeat c < 2 := by
  have ha0 : (0 : ℚ) ≤ min ((c.age : ℚ) / 20) (1 / 2) :=
    le_min (by positivity) (by norm_num)
  have ha : min ((c.age : ℚ) / 20) (1 / 2) ≤ 1 / 2 := min_le_right _ _
  by_cases h1 : c.age = 1
  · have hn : c.isNewborn = true := by simp [Cell.isNewborn, h, h1]
    have hv : calculateCellHeat c = 37 / 20 := by
      simp only [calculateCellHeat, hn, if_true, h1]
      norm_num [min_def]
    rw [hv]; norm_num
  · have hn : c.isNewborn = false := by simp [Cell.isNewborn, h, h1]
    have hv : calculateCellHeat c = min (1 + min ((c.age : ℚ) / 20) (1 / 2)) 2 := by
      simp [calculateCellHeat, hn]
    rw [hv]
    refine ⟨le_min (by linarith) (by norm_num), ?_, ?_⟩
    · exact (min_le_left _ _).trans (by linarith)
    · exact lt_of_le_of_lt (min_le_left _ _) (by linarith)

/-- Witness for C9: the newborn cell attains the upper endpoint. -/
theorem calculateCellHeat_range_witness :
    (⟨true, 1, false⟩ : Cell).alive = true ∧
    (1 ≤ calculateCellHeat ⟨true, 1, false⟩ ∧
     calculateCellHeat ⟨true, 1, false⟩ ≤ 37 / 20 ∧
     calculateCellHeat ⟨true, 1, false⟩ < 2) :=
  ⟨rfl, calculateCellHeat_range ⟨true, 1, false⟩ rfl⟩

/-- C1 counterexample: at an alive cell of age 10 the code returns 1.5
(age bonus `min(10/20, 0.5) = 0.5`) while the claimed formula
`0.5 * min(10/20, 1) = 0.25` gives 1.25. -/
theorem calculateCellHeat_claim_counterexample :
    (⟨true, 10, false⟩ : Cell).alive = true ∧
    calculateCellHeat ⟨true, 10, false⟩ = 3 / 2 ∧
    claimedCellHeat ⟨true, 10, false⟩ = 5 / 4 ∧
    calculateCellHeat ⟨true, 10, false⟩ ≠ claimedCellHeat ⟨true, 10, false⟩ := by
  refine ⟨rfl, ?_, ?_, ?_⟩ <;>
    norm_num [calculateCellHeat, claimedCellHeat, Cell.isNewborn, min_def]

/-- C1 amended: for every living cell the heat is base 1.0, plus the age
bonus `min(age/20, 0.5)` (the quotient `age/20` capped at 0.5, so the full
bonus is reached from age 10 on), plus a flat 0.8 newborn bonus, clamped
to a maximum of 2.0. -/
theorem calculateCellHeat_amended (c : Cell) (_h : c.alive = true) :
    calculateCellHeat c =
      min (1 + min ((c.age : ℚ) / 20) (1 / 2) +
        (if c.isNewborn then (4 : ℚ) / 5 else 0)) 2 := by
  by_cases hn : c.isNewborn <;> simp [calculateCellHeat, hn]

/-- Witness for the amended C1 at an alive cell of age 2. -/
theorem calculateCellHeat_amended_witness :
    (⟨true, 2, false⟩ : Cell).alive = true ∧
    calculateCellHeat ⟨true, 2, false⟩ =
      min (1 + min (((⟨true, 2, false⟩ : Cell).age : ℚ) / 20) (1 / 2) +
        (if (⟨true, 2, false⟩ : Cell).isNewborn then (4 : ℚ) / 5 else 0)) 2 :=
  ⟨rfl, calculateCellHeat_amended ⟨true, 2, false⟩ rfl⟩

/-! ### Renderer throttle -/

/-- Folding `render` over any call-time sequence preserves the throttle
invariant: recorded draws are at least 33.33 apart and the last recorded
draw is not later than `lastFrameTime`. -/
theorem render_foldl_invariant (ts : List ℚ) :
    ∀ s : RendererState,
      s.draws.Chain' (fun a b => a + 3333 / 100 ≤ b) →
      (∀ a ∈ s.draws.getLast?, a ≤ s.lastFrameTime) →
      ((ts.foldl Renderer.render s).draws.Chain'
          (fun a b => a + 3333 / 100 ≤ b) ∧
        ∀ a ∈ (ts.foldl Renderer.render s).draws.getLast?,
          a ≤ (ts.foldl Renderer.render s).lastFrameTime) := by
  induction ts with
  | nil => intro s h1 h2; exact ⟨h1, h2⟩
  | cons t ts ih =>
    intro s h1 h2
    simp only [List.foldl_cons]
    by_cases hgate : t - s.lastFrameTime < 3333 / 100
    · rw [Renderer.render, if_pos hgate]
      exact ih s h1 h2
    · rw [Renderer.render, if_neg hgate]
      apply ih
      · refine List.Chain'.append h1 (List.chain'_singleton t) ?_
        intro a ha b hb
        simp only [List.head?_cons, Option.mem_def, Option.some.injEq] at hb
        subst hb
        have := h2 a ha
        have : s.lastFrameTime + 3333 / 100 ≤ t := by linarith [not_lt.mp hgate]
        linarith
      · intro a ha
        simp only [List.getLast?_concat, Option.mem_def, Option.some.injEq] at ha
        subst ha
        exact le_refl _

/-- C8: a call of `render` earlier than 33.33 after the last completed
draw changes nothing (no canvas touch, no timestamp update), and along
any sequence of calls starting from the freshly constructed renderer,
consecutive completed draws are at least 33.33 apart. -/
theorem render_throttle :
    (∀ (s : RendererState) (t : ℚ),
        t - s.lastFrameTime < 3333 / 100 → Renderer.render s t = s) ∧
    (∀ ts : List ℚ,
        ((ts.foldl Renderer.render rendererInit).draws).Chain'
          (fun a b => a + 3333 / 100 ≤ b)) := by
  constructor
  · intro s t hgate
    rw [Renderer.render, if_pos hgate]
  · intro ts
    exact (render_foldl_invariant ts rendererInit (by simp [rendererInit])
      (by simp [rendererInit])).1

/-- Witness for C8: a call at time 1 (less than 33.33 after construction)
is skipped entirely. -/
theorem render_throttle_witness :
    (1 : ℚ) - rendererInit.lastFrameTime < 3333 / 100 ∧
      Renderer.render rendererInit 1 = rendererInit :=
  ⟨by norm_num [rendererInit],
   render_throttle.1 rendererInit 1 (by norm_num [rendererInit])⟩

/-! ### Thermal diffusion -/

/-- C2 counterexample: on the all-ones 3×3 field the border point at
index 0 is changed to 0 by `applyThermalDiffusion` (the zero-initialized
`newField` is copied back wholesale), not left unchanged at 1. -/
theorem applyThermalDiffusion_border_counterexample :
    (applyThermalDiffusion onesField 3 3 (2 / 25) (19 / 20)).getD 0 0 = 0 ∧
    onesField.getD 0 0 = 1 ∧
    (applyThermalDiffusion onesField 3 3 (2 / 25) (19 / 20)).getD 0 0 ≠
      onesField.getD 0 0 := by
  have h0 : (applyThermalDiffusion onesField 3 3 (2 / 25) (19 / 20)).getD 0 0 = 0 := by
    have hlen : 0 < (applyThermalDiffusion onesField 3 3 (2 / 25) (19 / 20)).length := by
      simp [applyThermalDiffusion, onesField]
    rw [List.getD_eq_getElem _ _ hlen]
    simp [applyThermalDiffusion]
  have h1 : onesField.getD 0 0 = 1 := by simp [onesField]
  refine ⟨h0, h1, ?_⟩
  rw [h0, h1]
  norm_num

/-- C2 amended: with the default coefficient 0.08 and decay 0.95, every
interior point of the field becomes
`(center + 0.08 * (north + south + east + west - 4*center)) * 0.95`,
while every non-interior (border) point of the field is set to 0 by the
pass (the zero-initialized `newField` is copied back over the whole
field); the field size is unchanged. -/
theorem applyThermalDiffusion_amended (field : List ℚ) (w h : ℕ)
    (hsize : field.length = w * h) (x y : ℕ)
    (hx1 : 1 ≤ x) (hx2 : x + 1 < w) (hy1 : 1 ≤ y) (hy2 : y + 1 < h) :
    ((applyThermalDiffusion field w h (2 / 25) (19 / 20)).getD (y * w + x) 0 =
      (field.getD (y * w + x) 0 + (2 / 25) *
        (field.getD ((y - 1) * w + x) 0 + field.getD ((y + 1) * w + x) 0 +
         field.getD (y * w + (x + 1)) 0 + field.getD (y * w + (x - 1)) 0 -
         4 * field.getD (y * w + x) 0)) * (19 / 20)) ∧
    (∀ i, i < field.length →
      ¬(1 ≤ i / w ∧ i / w + 1 < h ∧ 1 ≤ i % w ∧ i % w + 1 < w) →
      (applyThermalDiffusion field w h (2 / 25) (19 / 20)).getD i 0 = 0) ∧
    (applyThermalDiffusion field w h (2 / 25) (19 / 20)).length = field.length := by
  have hwpos : 0 < w := by omega
  have hxw : x < w := by omega
  refine ⟨?_, ?_, by simp [applyThermalDiffusion]⟩
  · have hidx : y * w + x < field.length := by
      rw [hsize]
      calc y * w + x < y * w + w := by omega
        _ = (y + 1) * w := by ring
        _ ≤ h * w := Nat.mul_le_mul_right w (by omega)
        _ = w * h := Nat.mul_comm _ _
    have hdy : (y * w + x) / w = y := by
      rw [Nat.mul_comm y w, Nat.mul_add_div hwpos, Nat.div_eq_of_lt hxw, Nat.add_zero]
    have hdx : (y * w + x) % w = x := by
      rw [Nat.mul_comm y w, Nat.mul_add_mod, Nat.mod_eq_of_lt hxw]
    have hlen : y * w + x < (applyThermalDiffusion field w h (2 / 25) (19 / 20)).length := by
      simpa [applyThermalDiffusion] using hidx
    rw [List.getD_eq_getElem _ _ hlen]
    simp only [applyThermalDiffusion, List.getElem_ofFn]
    simp only [hdy, hdx]
    rw [if_pos ⟨hy1, hy2, hx1, hx2⟩]
  · intro i hi hni
    have hlen : i < (applyThermalDiffusion field w h (2 / 25) (19 / 20)).length := by
      simpa [applyThermalDiffusion] using hi
    rw [List.getD_eq_getElem _ _ hlen]
    simp only [applyThermalDiffusion, List.getElem_ofFn]
    rw [if_neg hni]

/-- Witness for the amended C2 on the all-ones 3×3 field at the interior
point `(1, 1)`. -/
theorem applyThermalDiffusion_amended_witness :
    onesField.length = 3 * 3 ∧
    ((applyThermalDiffusion onesField 3 3 (2 / 25) (19 / 20)).getD (1 * 3 + 1) 0 =
      (onesField.getD (1 * 3 + 1) 0 + (2 / 25) *
        (onesField.getD ((1 - 1) * 3 + 1) 0 + onesField.getD ((1 + 1) * 3 + 1) 0 +
         onesField.getD (1 * 3 + (1 + 1)) 0 + onesField.getD (1 * 3 + (1 - 1)) 0 -
         4 * onesField.getD (1 * 3 + 1) 0)) * (19 / 20)) :=
  ⟨by simp [onesField],
   (applyThermalDiffusion_amended onesField 3 3 (by simp [onesField]) 1 1
      (by norm_num) (by norm_num) (by norm_num) (by norm_num)).1⟩


/-! ### Grid basics -/

theorem Grid.setCell_width (g : Grid) (x y : ℕ) (c : Cell) :
    (g.setCell x y c).width = g.width := rfl

theorem Grid.setCell_height (g : Grid) (x y : ℕ) (c : Cell) :
    (g.setCell x y c).height = g.height := rfl

theorem Grid.setCell_cells (g : Grid) (x y : ℕ) (c : Cell) (y' x' : ℕ) :
    (g.setCell x y c).cells y' x' = if y' = y ∧ x' = x then c else g.cells y' x' := rfl

theorem Grid.setCell_cells_same (g : Grid) (x y : ℕ) (c : Cell) :
    (g.setCell x y c).cells y x = c := by
  simp [Grid.setCell]

theorem Grid.setCell_cells_ne (g : Grid) (x y : ℕ) (c : Cell) (y' x' : ℕ)
    (h : ¬(y' = y ∧ x' = x)) :
    (g.setCell x y c).cells y' x' = g.cells y' x' := by
  simp [Grid.setCell, h]

theorem Grid.getCell_in (g : Grid) (x y : ℕ) (hx : x < g.width) (hy : y < g.height) :
    g.getCell x y = some (g.cells y x) := by
  rw [Grid.getCell, if_neg]
  · simp
  · push_neg
    refine ⟨by omega, by omega, by omega, by omega⟩

theorem Grid.getCell_oob (g : Grid) (x y : ℤ)
    (h : ¬(0 ≤ x ∧ x < (g.width : ℤ) ∧ 0 ≤ y ∧ y < (g.height : ℤ))) :
    g.getCell x y = none := by
  rw [Grid.getCell, if_pos]
  omega

/-- Living-neighbor counts only look at the `alive` flags (and the
dimensions) of the grid. -/
theorem getLivingNeighborCount_congr (g₁ g₂ : Grid)
    (hw : g₁.width = g₂.width) (hh : g₁.height = g₂.height)
    (ha : ∀ y x, (g₁.cells y x).alive = (g₂.cells y x).alive) (x y : ℤ) :
    g₁.getLivingNeighborCount x y = g₂.getLivingNeighborCount x y := by
  unfold Grid.getLivingNeighborCount
  apply List.countP_congr
  intro d _
  unfold Grid.aliveAt Grid.getCell
  rw [hw, hh]
  split_ifs with hC
  · simp
  · simp [ha]

/-- Folding over a `flatMap` is the nested fold. -/
theorem foldl_flatMap {α β γ : Type} (g : γ → List α) (f : β → α → β)
    (l : List γ) (init : β) :
    (l.flatMap g).foldl f init = l.foldl (fun acc c => (g c).foldl f acc) init := by
  induction l generalizing init with
  | nil => simp
  | cons c l ih => simp [List.flatMap_cons, List.foldl_append, ih]

/-- The nested loops of `applyRules` visit exactly `rowMajorIndices`. -/
theorem foldl_nested_eq {β : Type} (f : β → ℕ × ℕ → β) (w h : ℕ) (init : β) :
    (List.range h).foldl
        (fun b y => (List.range w).foldl (fun b' x => f b' (x, y)) b) init =
      (rowMajorIndices w h).foldl f init := by
  rw [rowMajorIndices, foldl_flatMap]
  simp only [List.foldl_map]

theorem mem_rowMajorIndices (w h : ℕ) (p : ℕ × ℕ) :
    p ∈ rowMajorIndices w h ↔ p.1 < w ∧ p.2 < h := by
  rcases p with ⟨a, b⟩
  simp only [rowMajorIndices, List.mem_flatMap, List.mem_map, List.mem_range,
    Prod.mk.injEq]
  constructor
  · rintro ⟨y, hy, x, hx, hxa, hyb⟩
    subst hxa; subst hyb
    exact ⟨hx, hy⟩
  · rintro ⟨ha, hb⟩
    exact ⟨b, hb, a, ha, rfl, rfl⟩

theorem rowMajorIndices_succ (w h : ℕ) :
    rowMajorIndices w (h + 1) =
      rowMajorIndices w h ++ (List.range w).map (fun x => (x, h)) := by
  rw [rowMajorIndices, rowMajorIndices, List.range_succ, List.flatMap_append,
    List.flatMap_singleton]

theorem nodup_rowMajorIndices (w h : ℕ) : (rowMajorIndices w h).Nodup := by
  induction h with
  | zero => simp [rowMajorIndices]
  | succ n ih =>
    rw [rowMajorIndices_succ, List.nodup_append]
    refine ⟨ih, ?_, ?_⟩
    · refine List.Nodup.map ?_ (List.nodup_range w)
      intro a b hab
      simpa using hab
    · intro p hp1 hp2
      have h1 : p.2 < n := ((mem_rowMajorIndices w n p).mp hp1).2
      have h2 : p.2 = n := by
        rcases List.mem_map.mp hp2 with ⟨x, _, hx⟩
        rw [← hx]
      omega

/-! ### Compute phase of applyRules -/

/-- Characterization of the compute phase: folding `phase1Step` over a
duplicate-free list of coordinates writes, at every in-bounds visited
coordinate, the next state computed from the reference grid `g₀`, and
touches nothing else.  `g` is the evolving grid: it must agree with `g₀`
on dimensions, on all `alive`/`age` fields, and entirely on the not yet
visited coordinates. -/
theorem phase1_foldl_spec (g₀ : Grid) (l : List (ℕ × ℕ)) :
    ∀ g : Grid, l.Nodup →
      g.width = g₀.width → g.height = g₀.height →
      (∀ y x, (g.cells y x).alive = (g₀.cells y x).alive ∧
              (g.cells y x).age = (g₀.cells y x).age) →
      (∀ p ∈ l, g.cells p.2 p.1 = g₀.cells p.2 p.1) →
      ((l.foldl phase1Step g).width = g₀.width ∧
       (l.foldl phase1Step g).height = g₀.height ∧
       ∀ q : ℕ × ℕ,
         (l.foldl phase1Step g).cells q.2 q.1 =
           if q ∈ l ∧ q.1 < g₀.width ∧ q.2 < g₀.height then
             (g₀.cells q.2 q.1).setNextState (conwayNext g₀ q)
           else g.cells q.2 q.1) := by
  induction l with
  | nil =>
    intro g _ hw hh _ _
    exact ⟨hw, hh, fun q => by simp⟩
  | cons p l ih =>
    intro g hnd hw hh hpres huntouched
    have hpl : p ∉ l := (List.nodup_cons.mp hnd).1
    have hndl : l.Nodup := (List.nodup_cons.mp hnd).2
    rw [List.foldl_cons]
    by_cases hb : p.1 < g₀.width ∧ p.2 < g₀.height
    · -- in bounds: the next state of p is written
      have hget : g.getCell p.1 p.2 = some (g.cells p.2 p.1) :=
        Grid.getCell_in g p.1 p.2 (by omega) (by omega)
      have hcc : g.cells p.2 p.1 = g₀.cells p.2 p.1 :=
        huntouched p (List.mem_cons_self p l)
      have hcount : g.getLivingNeighborCount p.1 p.2 =
          g₀.getLivingNeighborCount p.1 p.2 :=
        getLivingNeighborCount_congr g g₀ hw hh (fun y x => (hpres y x).1) _ _
      have hstep : phase1Step g p =
          g.setCell p.1 p.2 ((g₀.cells p.2 p.1).setNextState (conwayNext g₀ p)) := by
        simp only [phase1Step, hget, hcc, hcount, conwayNext]
      rw [hstep]
      have hpres' : ∀ y x,
          ((g.setCell p.1 p.2 ((g₀.cells p.2 p.1).setNextState (conwayNext g₀ p))).cells y x).alive
            = (g₀.cells y x).alive ∧
          ((g.setCell p.1 p.2 ((g₀.cells p.2 p.1).setNextState (conwayNext g₀ p))).cells y x).age
            = (g₀.cells y x).age := by
        intro y x
        rw [Grid.setCell_cells]
        by_cases hyx : y = p.2 ∧ x = p.1
        · rw [if_pos hyx, hyx.1, hyx.2]
          exact ⟨rfl, rfl⟩
        · rw [if_neg hyx]
          exact hpres y x
      have huntouched' : ∀ q ∈ l,
          (g.setCell p.1 p.2 ((g₀.cells p.2 p.1).setNextState (conwayNext g₀ p))).cells q.2 q.1
            = g₀.cells q.2 q.1 := by
        intro q hq
        rw [Grid.setCell_cells_ne]
        · exact huntouched q (List.mem_cons_of_mem _ hq)
        · intro hcon
          apply hpl
          have : q = p := Prod.ext hcon.2 hcon.1
          exact this ▸ hq
      obtain ⟨ihw, ihh, ihc⟩ := ih _ hndl (by rw [Grid.setCell_width, hw])
        (by rw [Grid.setCell_height, hh]) hpres' huntouched'
      refine ⟨ihw, ihh, ?_⟩
      intro q
      rw [ihc q]
      by_cases hq : q ∈ l
      · by_cases hqb : q.1 < g₀.width ∧ q.2 < g₀.height
        · rw [if_pos ⟨hq, hqb⟩, if_pos ⟨List.mem_cons_of_mem _ hq, hqb⟩]
        · rw [if_neg (by tauto), if_neg (by tauto)]
          rw [Grid.setCell_cells_ne]
          intro hcon
          apply hpl
          have : q = p := Prod.ext hcon.2 hcon.1
          exact this ▸ hq
      · by_cases hqp : q = p
        · subst hqp
          rw [if_neg (by tauto), if_pos ⟨List.mem_cons_self q l, hb⟩]
          rw [Grid.setCell_cells_same]
        · have hq' : q ∉ p :: l := by
            simp [List.mem_cons, hqp, hq]
          rw [if_neg (by tauto), if_neg (by tauto)]
          rw [Grid.setCell_cells_ne]
          intro hcon
          exact hqp (Prod.ext hcon.2 hcon.1)
    · -- p is out of bounds (never happens for row-major indices): no-op
      have hget : g.getCell p.1 p.2 = none := by
        apply Grid.getCell_oob
        omega
      have hstep : phase1Step g p = g := by
        simp only [phase1Step, hget]
      rw [hstep]
      obtain ⟨ihw, ihh, ihc⟩ := ih g hndl hw hh hpres
        (fun q hq => huntouched q (List.mem_cons_of_mem _ hq))
      refine ⟨ihw, ihh, ?_⟩
      intro q
      rw [ihc q]
      by_cases hq : q ∈ l
      · by_cases hqb : q.1 < g₀.width ∧ q.2 < g₀.height
        · rw [if_pos ⟨hq, hqb⟩, if_pos ⟨List.mem_cons_of_mem _ hq, hqb⟩]
        · rw [if_neg (by tauto), if_neg (by tauto)]
      · by_cases hqp : q = p
        · subst hqp
          rw [if_neg (by tauto), if_neg (by tauto)]
        · rw [if_neg (by tauto), if_neg (by simp [List.mem_cons, hqp, hq])]

/-! ### Commit phase of applyRules -/

/-- The Boolean recording a dead→alive flip of the cell at `p` of `gref`
under `update`, guarded by the bounds test. -/
def birthFlag (gref : Grid) (p : ℕ × ℕ) : Bool :=
  decide (p.1 < gref.width ∧ p.2 < gref.height) &&
    (!(gref.cells p.2 p.1).alive && ((gref.cells p.2 p.1).update).alive)

/-- The Boolean recording an alive→dead flip of the cell at `p` of `gref`
under `update`, guarded by the bounds test. -/
def deathFlag (gref : Grid) (p : ℕ × ℕ) : Bool :=
  decide (p.1 < gref.width ∧ p.2 < gref.height) &&
    ((gref.cells p.2 p.1).alive && !((gref.cells p.2 p.1).update).alive)

/-- Characterization of the commit phase: folding `phase2Step` over a
duplicate-free list of coordinates replaces every in-bounds visited cell
by its `update` and appends exactly the visited coordinates whose state
flips, in visiting order, to the births resp. deaths accumulators. -/
theorem phase2_foldl_spec (gref : Grid) (l : List (ℕ × ℕ)) :
    ∀ (g : Grid) (bs ds : List (ℕ × ℕ)), l.Nodup →
      g.width = gref.width → g.height = gref.height →
      (∀ p ∈ l, g.cells p.2 p.1 = gref.cells p.2 p.1) →
      ((l.foldl phase2Step (g, bs, ds)).1.width = gref.width ∧
       (l.foldl phase2Step (g, bs, ds)).1.height = gref.height ∧
       (∀ q : ℕ × ℕ,
         (l.foldl phase2Step (g, bs, ds)).1.cells q.2 q.1 =
           if q ∈ l ∧ q.1 < gref.width ∧ q.2 < gref.height then
             (gref.cells q.2 q.1).update
           else g.cells q.2 q.1) ∧
       (l.foldl phase2Step (g, bs, ds)).2.1 = bs ++ l.filter (birthFlag gref) ∧
       (l.foldl phase2Step (g, bs, ds)).2.2 = ds ++ l.filter (deathFlag gref)) := by
  induction l with
  | nil =>
    intro g bs ds _ hw hh _
    exact ⟨hw, hh, fun q => by simp, by simp, by simp⟩
  | cons p l ih =>
    intro g bs ds hnd hw hh huntouched
    have hpl : p ∉ l := (List.nodup_cons.mp hnd).1
    have hndl : l.Nodup := (List.nodup_cons.mp hnd).2
    rw [List.foldl_cons]
    by_cases hb : p.1 < gref.width ∧ p.2 < gref.height
    · -- in bounds: the cell at p is updated and a flip may be recorded
      have hget : g.getCell p.1 p.2 = some (g.cells p.2 p.1) :=
        Grid.getCell_in g p.1 p.2 (by omega) (by omega)
      have hcc : g.cells p.2 p.1 = gref.cells p.2 p.1 :=
        huntouched p (List.mem_cons_self p l)
      have hdec :
          (decide (p.1 < gref.width ∧ p.2 < gref.height) : Bool) = true :=
        decide_eq_true hb
      have hbirth : birthFlag gref p =
          (!(gref.cells p.2 p.1).alive && ((gref.cells p.2 p.1).update).alive) := by
        simp [birthFlag, hdec]
      have hdeath : deathFlag gref p =
          ((gref.cells p.2 p.1).alive && !((gref.cells p.2 p.1).update).alive) := by
        simp [deathFlag, hdec]
      have hstep : phase2Step (g, bs, ds) p =
          (g.setCell p.1 p.2 ((gref.cells p.2 p.1).update),
           bs ++ (if birthFlag gref p then [p] else []),
           ds ++ (if deathFlag gref p then [p] else [])) := by
        simp only [phase2Step, hget, hcc]
        rw [hbirth, hdeath]
        cases hAl : (gref.cells p.2 p.1).alive <;>
          cases hUp : ((gref.cells p.2 p.1).update).alive <;>
            simp [hAl, hUp]
      rw [hstep]
      have huntouched' : ∀ q ∈ l,
          (g.setCell p.1 p.2 ((gref.cells p.2 p.1).update)).cells q.2 q.1
            = gref.cells q.2 q.1 := by
        intro q hq
        rw [Grid.setCell_cells_ne]
        · exact huntouched q (List.mem_cons_of_mem _ hq)
        · intro hcon
          apply hpl
          have : q = p := Prod.ext hcon.2 hcon.1
          exact this ▸ hq
      obtain ⟨ihw, ihh, ihc, ihb, ihd⟩ := ih _ _ _ hndl
        (by rw [Grid.setCell_width, hw]) (by rw [Grid.setCell_height, hh])
        huntouched'
      refine ⟨ihw, ihh, ?_, ?_, ?_⟩
      · intro q
        rw [ihc q]
        by_cases hq : q ∈ l
        · by_cases hqb : q.1 < gref.width ∧ q.2 < gref.height
          · rw [if_pos ⟨hq, hqb⟩, if_pos ⟨List.mem_cons_of_mem _ hq, hqb⟩]
          · rw [if_neg (by tauto), if_neg (by tauto)]
            rw [Grid.setCell_cells_ne]
            intro hcon
            apply hpl
            have : q = p := Prod.ext hcon.2 hcon.1
            exact this ▸ hq
        · by_cases hqp : q = p
          · subst hqp
            rw [if_neg (by tauto), if_pos ⟨List.mem_cons_self q l, hb⟩]
            rw [Grid.setCell_cells_same]
          · rw [if_neg (by tauto), if_neg (by simp [List.mem_cons, hqp, hq])]
            rw [Grid.setCell_cells_ne]
            intro hcon
            exact hqp (Prod.ext hcon.2 hcon.1)
      · rw [ihb, List.filter_cons]
        by_cases hf : birthFlag gref p = true
        · simp [hf]
        · simp [hf]
      · rw [ihd, List.filter_cons]
        by_cases hf : deathFlag gref p = true
        · simp [hf]
        · simp [hf]
    · -- p out of bounds: no-op, and the flags are false
      have hget : g.getCell p.1 p.2 = none := by
        apply Grid.getCell_oob
        omega
      have hstep : phase2Step (g, bs, ds) p = (g, bs, ds) := by
        simp only [phase2Step, hget]
      rw [hstep]
      obtain ⟨ihw, ihh, ihc, ihb, ihd⟩ := ih g bs ds hndl hw hh
        (fun q hq => huntouched q (List.mem_cons_of_mem _ hq))
      have hbf : birthFlag gref p = false := by
        simp [birthFlag, hb]
      have hdf : deathFlag gref p = false := by
        simp [deathFlag, hb]
      refine ⟨ihw, ihh, ?_, ?_, ?_⟩
      · intro q
        rw [ihc q]
        by_cases hq : q ∈ l
        · by_cases hqb : q.1 < gref.width ∧ q.2 < gref.height
          · rw [if_pos ⟨hq, hqb⟩, if_pos ⟨List.mem_cons_of_mem _ hq, hqb⟩]
          · rw [if_neg (by tauto), if_neg (by tauto)]
        · by_cases hqp : q = p
          · subst hqp
            rw [if_neg (by tauto), if_neg (by tauto)]
          · rw [if_neg (by tauto), if_neg (by simp [List.mem_cons, hqp, hq])]
      · rw [ihb, List.filter_cons, hbf]
        simp
      · rw [ihd, List.filter_cons, hdf]
        simp

/-! ### applyRules assembled -/

/-- `applyRules` written with the nested loops flattened to folds over the
row-major coordinate list. -/
theorem applyRules_eq (gol : GameOfLife) :
    gol.applyRules =
      { grid := ((rowMajorIndices gol.grid.width gol.grid.height).foldl phase2Step
            ((rowMajorIndices gol.grid.width gol.grid.height).foldl phase1Step gol.grid,
              ([] : List (ℕ × ℕ)), ([] : List (ℕ × ℕ)))).1,
        generation := gol.generation + 1,
        births := ((rowMajorIndices gol.grid.width gol.grid.height).foldl phase2Step
            ((rowMajorIndices gol.grid.width gol.grid.height).foldl phase1Step gol.grid,
              ([] : List (ℕ × ℕ)), ([] : List (ℕ × ℕ)))).2.1,
        deaths := ((rowMajorIndices gol.grid.width gol.grid.height).foldl phase2Step
            ((rowMajorIndices gol.grid.width gol.grid.height).foldl phase1Step gol.grid,
              ([] : List (ℕ × ℕ)), ([] : List (ℕ × ℕ)))).2.2 } := by
  simp only [GameOfLife.applyRules]
  rw [foldl_nested_eq phase1Step, foldl_nested_eq phase2Step]

/-- Full description of one `applyRules` call: dimensions preserved, every
cell replaced by the two-phase result computed from the initial grid, and
the births/deaths lists are the row-major flips. -/
theorem applyRules_grid_facts (gol : GameOfLife) :
    (gol.applyRules).grid.width = gol.grid.width ∧
    (gol.applyRules).grid.height = gol.grid.height ∧
    (∀ q : ℕ × ℕ, q.1 < gol.grid.width → q.2 < gol.grid.height →
      (gol.applyRules).grid.cells q.2 q.1 =
        ((gol.grid.cells q.2 q.1).setNextState (conwayNext gol.grid q)).update) ∧
    (gol.applyRules).births =
      (rowMajorIndices gol.grid.width gol.grid.height).filter
        (fun p => !(gol.grid.cells p.2 p.1).alive && conwayNext gol.grid p) ∧
    (gol.applyRules).deaths =
      (rowMajorIndices gol.grid.width gol.grid.height).filter
        (fun p => (gol.grid.cells p.2 p.1).alive && !(conwayNext gol.grid p)) := by
  have hnd := nodup_rowMajorIndices gol.grid.width gol.grid.height
  obtain ⟨h1w, h1h, h1c⟩ := phase1_foldl_spec gol.grid
    (rowMajorIndices gol.grid.width gol.grid.height) gol.grid hnd rfl rfl
    (fun y x => ⟨rfl, rfl⟩) (fun p _ => rfl)
  have hg1c : ∀ q : ℕ × ℕ, q.1 < gol.grid.width → q.2 < gol.grid.height →
      ((rowMajorIndices gol.grid.width gol.grid.height).foldl phase1Step gol.grid).cells q.2 q.1 =
        (gol.grid.cells q.2 q.1).setNextState (conwayNext gol.grid q) := by
    intro q hq1 hq2
    rw [h1c q, if_pos ⟨(mem_rowMajorIndices _ _ q).mpr ⟨hq1, hq2⟩, hq1, hq2⟩]
  obtain ⟨h2w, h2h, h2c, h2b, h2d⟩ := phase2_foldl_spec
    ((rowMajorIndices gol.grid.width gol.grid.height).foldl phase1Step gol.grid)
    (rowMajorIndices gol.grid.width gol.grid.height)
    ((rowMajorIndices gol.grid.width gol.grid.height).foldl phase1Step gol.grid)
    [] [] hnd rfl rfl (fun p _ => rfl)
  rw [applyRules_eq]
  refine ⟨by rw [h2w, h1w], by rw [h2h, h1h], ?_, ?_, ?_⟩
  · intro q hq1 hq2
    rw [h2c q, if_pos ⟨(mem_rowMajorIndices _ _ q).mpr ⟨hq1, hq2⟩,
        by rw [h1w]; exact hq1, by rw [h1h]; exact hq2⟩]
    rw [hg1c q hq1 hq2]
  · rw [h2b, List.nil_append]
    apply List.filter_congr
    intro p hp
    obtain ⟨hp1, hp2⟩ := (mem_rowMajorIndices _ _ p).mp hp
    rw [birthFlag, hg1c p hp1 hp2]
    have hdec : (decide
        (p.1 < ((rowMajorIndices gol.grid.width gol.grid.height).foldl
            phase1Step gol.grid).width ∧
         p.2 < ((rowMajorIndices gol.grid.width gol.grid.height).foldl
            phase1Step gol.grid).height) : Bool) = true := by
      rw [h1w, h1h]
      exact decide_eq_true ⟨hp1, hp2⟩
    rw [hdec]
    simp [Cell.update, Cell.setNextState]
  · rw [h2d, List.nil_append]
    apply List.filter_congr
    intro p hp
    obtain ⟨hp1, hp2⟩ := (mem_rowMajorIndices _ _ p).mp hp
    rw [deathFlag, hg1c p hp1 hp2]
    have hdec : (decide
        (p.1 < ((rowMajorIndices gol.grid.width gol.grid.height).foldl
            phase1Step gol.grid).width ∧
         p.2 < ((rowMajorIndices gol.grid.width gol.grid.height).foldl
            phase1Step gol.grid).height) : Bool) = true := by
      rw [h1w, h1h]
      exact decide_eq_true ⟨hp1, hp2⟩
    rw [hdec]
    simp [Cell.update, Cell.setNextState]

/-- C3: one `applyRules` call advances the grid by exactly one Conway
generation: every cell's new alive state is decided from the pre-update
living-neighbor count of the initial grid (survival on 2 or 3, birth on
exactly 3); no decision observes a committed next state, and the grid
dimensions are unchanged. -/
theorem applyRules_one_conway_generation (gol : GameOfLife) (x y : ℕ)
    (hx : x < gol.grid.width) (hy : y < gol.grid.height) :
    ((gol.applyRules).grid.width = gol.grid.width ∧
     (gol.applyRules).grid.height = gol.grid.height) ∧
    (((gol.applyRules).grid.cells y x).alive = true ↔
      (if (gol.grid.cells y x).alive = true
       then gol.grid.getLivingNeighborCount x y = 2 ∨
            gol.grid.getLivingNeighborCount x y = 3
       else gol.grid.getLivingNeighborCount x y = 3)) := by
  obtain ⟨hw, hh, hc, -, -⟩ := applyRules_grid_facts gol
  refine ⟨⟨hw, hh⟩, ?_⟩
  rw [hc (x, y) hx hy]
  simp only [Cell.update, Cell.setNextState, conwayNext]
  by_cases ha : (gol.grid.cells y x).alive = true
  · simp [ha]
  · simp [ha]

/-- Witness for C3 on the 3×3 blinker at the center cell `(1, 1)`. -/
theorem applyRules_one_conway_generation_witness :
    (1 < blinkerGol.grid.width ∧ 1 < blinkerGol.grid.height) ∧
    (((blinkerGol.applyRules).grid.width = blinkerGol.grid.width ∧
      (blinkerGol.applyRules).grid.height = blinkerGol.grid.height) ∧
     (((blinkerGol.applyRules).grid.cells 1 1).alive = true ↔
       (if (blinkerGol.grid.cells 1 1).alive = true
        then blinkerGol.grid.getLivingNeighborCount 1 1 = 2 ∨
             blinkerGol.grid.getLivingNeighborCount 1 1 = 3
        else blinkerGol.grid.getLivingNeighborCount 1 1 = 3))) :=
  ⟨⟨by decide, by decide⟩,
   applyRules_one_conway_generation blinkerGol 1 1 (by decide) (by decide)⟩

/-- C4: `applyRules` increments the generation counter by exactly 1, and
the births/deaths lists (rebuilt from empty on every call) are exactly the
coordinates whose state flipped dead→alive resp. alive→dead in this
transition, in row-major scan order. -/
theorem applyRules_generation_and_change_lists (gol : GameOfLife) :
    (gol.applyRules).generation = gol.generation + 1 ∧
    (gol.applyRules).births =
      (rowMajorIndices gol.grid.width gol.grid.height).filter
        (fun p => !(gol.grid.cells p.2 p.1).alive &&
          ((gol.applyRules).grid.cells p.2 p.1).alive) ∧
    (gol.applyRules).deaths =
      (rowMajorIndices gol.grid.width gol.grid.height).filter
        (fun p => (gol.grid.cells p.2 p.1).alive &&
          !((gol.applyRules).grid.cells p.2 p.1).alive) := by
  obtain ⟨-, -, hc, hb, hd⟩ := applyRules_grid_facts gol
  refine ⟨by rw [applyRules_eq], ?_, ?_⟩
  · rw [hb]
    apply List.filter_congr
    intro p hp
    obtain ⟨hp1, hp2⟩ := (mem_rowMajorIndices _ _ p).mp hp
    rw [hc p hp1 hp2]
    simp [Cell.update, Cell.setNextState]
  · rw [hd]
    apply List.filter_congr
    intro p hp
    obtain ⟨hp1, hp2⟩ := (mem_rowMajorIndices _ _ p).mp hp
    rw [hc p hp1 hp2]
    simp [Cell.update, Cell.setNextState]

/-! ### Neighbor counting against the Moore-neighborhood set -/

/-- C6: the living-neighbor count is an integer in `[0, 8]` and equals the
number of elements of the Moore-offset set (the eight offsets excluding
the center) whose neighbor cell exists and is alive, off-grid neighbors
counting as dead; in particular, on the 3×3 grid whose only living cell is
`(0, 0)`, the count at `(0, 0)` is 0 — no wraparound. -/
theorem getLivingNeighborCount_moore_spec :
    (∀ (g : Grid) (x y : ℤ),
       g.getLivingNeighborCount x y ≤ 8 ∧
       g.getLivingNeighborCount x y = specNeighborCount g x y) ∧
    (cornerGrid.aliveAt 0 0 = true ∧
     (rowMajorIndices 3 3).countP
        (fun p => cornerGrid.aliveAt (p.1 : ℤ) (p.2 : ℤ)) = 1 ∧
     cornerGrid.getLivingNeighborCount 0 0 = 0) := by
  constructor
  · intro g x y
    constructor
    · exact le_trans (List.countP_le_length _) (by norm_num [neighborOffsets])
    · have hnodup : neighborOffsets.Nodup := by decide
      have hset : neighborOffsets.toFinset = mooreOffsets := by decide
      rw [Grid.getLivingNeighborCount, List.countP_eq_length_filter,
        ← List.toFinset_card_of_nodup (hnodup.filter _),
        List.toFinset_filter, hset, specNeighborCount]
  · exact ⟨by decide, by decide, by decide⟩

/-! ### Out-of-bounds behavior and loadPattern -/

/-- `getCell` after a raw cell overwrite. -/
theorem Grid.getCell_setCell (g : Grid) (u v : ℕ) (c : Cell) (x y : ℤ) :
    (g.setCell u v c).getCell x y =
      if x = (u : ℤ) ∧ y = (v : ℤ) ∧ u < g.width ∧ v < g.height then some c
      else g.getCell x y := by
  rw [Grid.getCell, Grid.getCell, Grid.setCell]
  simp only
  by_cases hoob : x < 0 ∨ (g.width : ℤ) ≤ x ∨ y < 0 ∨ (g.height : ℤ) ≤ y
  · rw [if_pos hoob, if_pos hoob, if_neg (by omega)]
  · rw [if_neg hoob, if_neg hoob]
    by_cases hxy : x = (u : ℤ) ∧ y = (v : ℤ) ∧ u < g.width ∧ v < g.height
    · rw [if_pos hxy, if_pos (by omega)]
    · rw [if_neg hxy, if_neg (by omega)]

theorem Grid.setCellState_width (g : Grid) (x y : ℤ) (b : Bool) :
    (g.setCellState x y b).width = g.width := by
  rw [Grid.setCellState]
  cases g.getCell x y <;> rfl

theorem Grid.setCellState_height (g : Grid) (x y : ℤ) (b : Bool) :
    (g.setCellState x y b).height = g.height := by
  rw [Grid.setCellState]
  cases g.getCell x y <;> rfl

/-- `getCell` after `setCellState`: the target cell becomes the
`setState` result when the write is in bounds, everything else reads as
before. -/
theorem Grid.setCellState_getCell (g : Grid) (u v : ℤ) (b : Bool) (x y : ℤ) :
    (g.setCellState u v b).getCell x y =
      if x = u ∧ y = v ∧ 0 ≤ u ∧ u < (g.width : ℤ) ∧ 0 ≤ v ∧ v < (g.height : ℤ) then
        some ⟨b, if b then 1 else 0, b⟩
      else g.getCell x y := by
  by_cases hin : 0 ≤ u ∧ u < (g.width : ℤ) ∧ 0 ≤ v ∧ v < (g.height : ℤ)
  · have hget : g.getCell u v = some (g.cells v.toNat u.toNat) := by
      rw [Grid.getCell, if_neg (by omega)]
    rw [Grid.setCellState]
    simp only [hget]
    rw [Grid.getCell_setCell]
    have hu : ((u.toNat : ℤ)) = u := Int.toNat_of_nonneg hin.1
    have hv : ((v.toNat : ℤ)) = v := Int.toNat_of_nonneg hin.2.2.1
    by_cases hxy : x = u ∧ y = v
    · rw [if_pos (show x = (u.toNat : ℤ) ∧ y = (v.toNat : ℤ) ∧
          u.toNat < g.width ∧ v.toNat < g.height by omega)]
      rw [if_pos (by tauto)]
      simp [Cell.setState]
    · rw [if_neg (by omega), if_neg (by tauto)]
  · have hget : g.getCell u v = none := Grid.getCell_oob g u v (by omega)
    rw [Grid.setCellState]
    simp only [hget]
    rw [if_neg (by tauto)]

/-- The explicit bounds test of `loadPattern` is redundant: out of bounds,
`setCellState` is itself a no-op. -/
theorem loadPattern_step_eq (g2 : Grid) (sX sY : ℤ) (y x : ℕ) (b : Bool) :
    (if 0 ≤ sX + (x : ℤ) ∧ sX + (x : ℤ) < (g2.width : ℤ) ∧
        0 ≤ sY + (y : ℤ) ∧ sY + (y : ℤ) < (g2.height : ℤ) then
       g2.setCellState (sX + (x : ℤ)) (sY + (y : ℤ)) b
     else g2) =
      g2.setCellState (sX + (x : ℤ)) (sY + (y : ℤ)) b := by
  split
  · rfl
  · rw [Grid.setCellState, Grid.getCell_oob _ _ _ (by omega)]

/-- `loadPattern` with the redundant bounds test removed. -/
theorem loadPattern_eq_plain (g : Grid) (pattern : List (List Bool)) (sX sY : ℤ) :
    g.loadPattern pattern sX sY =
      (List.range pattern.length).foldl (fun g1 (y : ℕ) =>
        (List.range (pattern.getD y []).length).foldl
          (fun g2 (x : ℕ) => g2.setCellState (sX + (x : ℤ)) (sY + (y : ℤ))
             ((pattern.getD y []).getD x false)) g1) g := by
  rw [Grid.loadPattern]
  simp only [loadPattern_step_eq]

/-- Width is preserved by any fold whose step preserves it. -/
theorem foldl_width {α : Type} (f : Grid → α → Grid)
    (hf : ∀ g a, (f g a).width = g.width) :
    ∀ (l : List α) (g : Grid), (l.foldl f g).width = g.width := by
  intro l
  induction l with
  | nil => intro g; rfl
  | cons a l ih => intro g; rw [List.foldl_cons, ih, hf]

/-- Height is preserved by any fold whose step preserves it. -/
theorem foldl_height {α : Type} (f : Grid → α → Grid)
    (hf : ∀ g a, (f g a).height = g.height) :
    ∀ (l : List α) (g : Grid), (l.foldl f g).height = g.height := by
  intro l
  induction l with
  | nil => intro g; rfl
  | cons a l ih => intro g; rw [List.foldl_cons, ih, hf]

/-- One pattern row: folding writes at `(sX + j, ty)` for `j < n` gives
every in-bounds written coordinate the `setState` of its row entry and
leaves every other coordinate unchanged. -/
theorem loadPattern_row_getCell (sX ty : ℤ) (row : List Bool) :
    ∀ (n : ℕ) (g : Grid) (x y : ℤ),
      ((List.range n).foldl
          (fun g2 (j : ℕ) => g2.setCellState (sX + (j : ℤ)) ty
            (row.getD j false)) g).getCell x y =
        if sX ≤ x ∧ x < sX + (n : ℤ) ∧ y = ty ∧
            0 ≤ x ∧ x < (g.width : ℤ) ∧ 0 ≤ y ∧ y < (g.height : ℤ) then
          some ⟨row.getD (x - sX).toNat false,
                if row.getD (x - sX).toNat false then 1 else 0,
                row.getD (x - sX).toNat false⟩
        else g.getCell x y := by
  intro n
  induction n with
  | zero =>
    intro g x y
    rw [List.range_zero, List.foldl_nil, if_neg (by omega)]
  | succ n ih =>
    intro g x y
    rw [List.range_succ, List.foldl_append, List.foldl_cons, List.foldl_nil]
    rw [Grid.setCellState_getCell]
    have hwid : ((List.range n).foldl
        (fun g2 (j : ℕ) => g2.setCellState (sX + (j : ℤ)) ty
          (row.getD j false)) g).width = g.width :=
      foldl_width _ (fun g' a => Grid.setCellState_width g' _ _ _) _ _
    have hhei : ((List.range n).foldl
        (fun g2 (j : ℕ) => g2.setCellState (sX + (j : ℤ)) ty
          (row.getD j false)) g).height = g.height :=
      foldl_height _ (fun g' a => Grid.setCellState_height g' _ _ _) _ _
    simp only [hwid, hhei]
    by_cases hlast : x = sX + (n : ℤ) ∧ y = ty ∧ 0 ≤ sX + (n : ℤ) ∧
        sX + (n : ℤ) < (g.width : ℤ) ∧ 0 ≤ ty ∧ ty < (g.height : ℤ)
    · rw [if_pos hlast]
      have hxn : (x - sX).toNat = n := by omega
      rw [hxn]
      split_ifs <;> first | rfl | (exfalso; omega)
    · rw [if_neg hlast, ih g x y]
      split_ifs <;> first | rfl | (exfalso; omega)

/-- The whole pattern: folding the rows writes every in-bounds target of
the pattern and leaves every other coordinate unchanged. -/
theorem loadPattern_foldl_getCell (sX sY : ℤ) (pattern : List (List Bool)) :
    ∀ (m : ℕ) (g : Grid) (x y : ℤ),
      ((List.range m).foldl (fun g1 (i : ℕ) =>
          (List.range (pattern.getD i []).length).foldl
            (fun g2 (j : ℕ) => g2.setCellState (sX + (j : ℤ)) (sY + (i : ℤ))
               ((pattern.getD i []).getD j false)) g1) g).getCell x y =
        if sY ≤ y ∧ y < sY + (m : ℤ) ∧
            sX ≤ x ∧ x < sX + ((pattern.getD (y - sY).toNat []).length : ℤ) ∧
            0 ≤ x ∧ x < (g.width : ℤ) ∧ 0 ≤ y ∧ y < (g.height : ℤ) then
          some ⟨(pattern.getD (y - sY).toNat []).getD (x - sX).toNat false,
                if (pattern.getD (y - sY).toNat []).getD (x - sX).toNat false
                  then 1 else 0,
                (pattern.getD (y - sY).toNat []).getD (x - sX).toNat false⟩
        else g.getCell x y := by
  intro m
  induction m with
  | zero =>
    intro g x y
    rw [List.range_zero, List.foldl_nil, if_neg (by omega)]
  | succ m ih =>
    intro g x y
    rw [List.range_succ, List.foldl_append, List.foldl_cons, List.foldl_nil]
    rw [loadPattern_row_getCell]
    have hwid : ((List.range m).foldl (fun g1 (i : ℕ) =>
        (List.range (pattern.getD i []).length).foldl
          (fun g2 (j : ℕ) => g2.setCellState (sX + (j : ℤ)) (sY + (i : ℤ))
             ((pattern.getD i []).getD j false)) g1) g).width = g.width :=
      foldl_width _ (fun g' a =>
        foldl_width _ (fun g'' a' => Grid.setCellState_width g'' _ _ _) _ _) _ _
    have hhei : ((List.range m).foldl (fun g1 (i : ℕ) =>
        (List.range (pattern.getD i []).length).foldl
          (fun g2 (j : ℕ) => g2.setCellState (sX + (j : ℤ)) (sY + (i : ℤ))
             ((pattern.getD i []).getD j false)) g1) g).height = g.height :=
      foldl_height _ (fun g' a =>
        foldl_height _ (fun g'' a' => Grid.setCellState_height g'' _ _ _) _ _) _ _
    simp only [hwid, hhei]
    rw [ih g x y]
    by_cases hy : y = sY + (m : ℤ)
    · have hym : (y - sY).toNat = m := by omega
      rw [hym]
      have hnotm : ¬(sY ≤ y ∧ y < sY + (m : ℤ) ∧
          sX ≤ x ∧ x < sX + ((pattern.getD m []).length : ℤ) ∧
          0 ≤ x ∧ x < (g.width : ℤ) ∧ 0 ≤ y ∧ y < (g.height : ℤ)) := by omega
      rw [if_neg hnotm]
      split_ifs <;> first | rfl | (exfalso; omega)
    · have hnotrow : ¬(sX ≤ x ∧ x < sX + ((pattern.getD m []).length : ℤ) ∧
          y = sY + (m : ℤ) ∧
          0 ≤ x ∧ x < (g.width : ℤ) ∧ 0 ≤ y ∧ y < (g.height : ℤ)) := by omega
      rw [if_neg hnotrow]
      split_ifs <;> first | rfl | (exfalso; omega)

/-- C7: out-of-bounds coordinates are treated as absent everywhere:
`getCell` yields `none` and never throws, `setCellState`/`toggleCell`
leave the grid unchanged, and `loadPattern` writes exactly the pattern
entries whose target lies inside the grid (with `setState` semantics)
while silently skipping all others and touching nothing else. -/
theorem grid_out_of_bounds_total (g : Grid) (x y : ℤ) (b : Bool)
    (pattern : List (List Bool)) (sX sY : ℤ) :
    (¬(0 ≤ x ∧ x < (g.width : ℤ) ∧ 0 ≤ y ∧ y < (g.height : ℤ)) →
       g.getCell x y = none ∧ g.setCellState x y b = g ∧ g.toggleCell x y = g) ∧
    ((g.loadPattern pattern sX sY).getCell x y =
      if sY ≤ y ∧ y < sY + (pattern.length : ℤ) ∧
          sX ≤ x ∧ x < sX + ((pattern.getD (y - sY).toNat []).length : ℤ) ∧
          0 ≤ x ∧ x < (g.width : ℤ) ∧ 0 ≤ y ∧ y < (g.height : ℤ) then
        some ⟨(pattern.getD (y - sY).toNat []).getD (x - sX).toNat false,
              if (pattern.getD (y - sY).toNat []).getD (x - sX).toNat false
                then 1 else 0,
              (pattern.getD (y - sY).toNat []).getD (x - sX).toNat false⟩
      else g.getCell x y) := by
  constructor
  · intro hoob
    have hget : g.getCell x y = none := Grid.getCell_oob g x y hoob
    refine ⟨hget, ?_, ?_⟩
    · simp only [Grid.setCellState, hget]
    · simp only [Grid.toggleCell, hget]
  · rw [loadPattern_eq_plain, loadPattern_foldl_getCell]

/-- Witness for C7: the coordinate `(-1, 0)` on the 3×3 corner grid. -/
theorem grid_out_of_bounds_total_witness :
    ¬((0 : ℤ) ≤ -1 ∧ (-1 : ℤ) < (cornerGrid.width : ℤ) ∧
        (0 : ℤ) ≤ 0 ∧ (0 : ℤ) < (cornerGrid.height : ℤ)) ∧
    (cornerGrid.getCell (-1) 0 = none ∧
     cornerGrid.setCellState (-1) 0 true = cornerGrid ∧
     cornerGrid.toggleCell (-1) 0 = cornerGrid) :=
  ⟨by decide,
   (grid_out_of_bounds_total cornerGrid (-1) 0 true [] 0 0).1 (by decide)⟩

/-! ### randomize -/

/-- One row of `randomize`: every visited cell of the row is `setState`d
to its drawn value, everything else is untouched. -/
theorem randomize_row_cells (rand : ℕ → ℕ → Bool) (ty : ℕ) :
    ∀ (n : ℕ) (g : Grid) (y x : ℕ),
      ((List.range n).foldl
          (fun g2 (j : ℕ) => g2.setCell j ty
            ((g2.cells ty j).setState (rand ty j))) g).cells y x =
        if y = ty ∧ x < n then ⟨rand ty x, if rand ty x then 1 else 0, rand ty x⟩
        else g.cells y x := by
  intro n
  induction n with
  | zero =>
    intro g y x
    rw [List.range_zero, List.foldl_nil, if_neg (by omega)]
  | succ n ih =>
    intro g y x
    rw [List.range_succ, List.foldl_append, List.foldl_cons, List.foldl_nil]
    rw [Grid.setCell_cells]
    by_cases hyx : y = ty ∧ x = n
    · rw [if_pos hyx, if_pos ⟨hyx.1, by omega⟩]
      simp [Cell.setState, hyx.2]
    · rw [if_neg hyx, ih g y x]
      split_ifs <;> first | rfl | (exfalso; omega)

/-- The whole of `randomize`: every cell inside the grid is `setState`d to
its drawn value; width is preserved along the way. -/
theorem randomize_foldl_cells (rand : ℕ → ℕ → Bool) (W : ℕ) :
    ∀ (m : ℕ) (g : Grid), g.width = W →
      (((List.range m).foldl (fun g1 (i : ℕ) =>
          (List.range g1.width).foldl
            (fun g2 (j : ℕ) => g2.setCell j i
              ((g2.cells i j).setState (rand i j))) g1) g).width = W ∧
       ∀ y x : ℕ,
        ((List.range m).foldl (fun g1 (i : ℕ) =>
          (List.range g1.width).foldl
            (fun g2 (j : ℕ) => g2.setCell j i
              ((g2.cells i j).setState (rand i j))) g1) g).cells y x =
          if y < m ∧ x < W then ⟨rand y x, if rand y x then 1 else 0, rand y x⟩
          else g.cells y x) := by
  intro m
  induction m with
  | zero =>
    intro g hw
    exact ⟨hw, fun y x => by rw [List.range_zero, List.foldl_nil, if_neg (by omega)]⟩
  | succ m ih =>
    intro g hw
    obtain ⟨ihw, ihc⟩ := ih g hw
    rw [List.range_succ, List.foldl_append, List.foldl_cons, List.foldl_nil]
    rw [ihw]
    constructor
    · rw [foldl_width
        (fun g2 (j : ℕ) => g2.setCell j m ((g2.cells m j).setState (rand m j)))
        (fun g' a => rfl) (List.range W) _, ihw]
    · intro y x
      rw [randomize_row_cells, ihc y x]
      by_cases hym : y = m
      · subst hym
        split_ifs <;> first | rfl | (exfalso; omega)
      · split_ifs <;> first | rfl | (exfalso; omega)

/-- C10: `setCellState(x, y, true)` sets the cell's age to exactly 1 (even
if it was already alive with a larger age), `setCellState(x, y, false)`
sets it to 0, `toggleCell` does the corresponding reset, and `randomize`
leaves every cell with age 1 or 0 according to its draw — accumulated age
is always erased by direct edits. -/
theorem setCellState_resets_age (g : Grid) (x y : ℕ)
    (hx : x < g.width) (hy : y < g.height) (rand : ℕ → ℕ → Bool) :
    (g.setCellState x y true).getCell x y = some ⟨true, 1, true⟩ ∧
    (g.setCellState x y false).getCell x y = some ⟨false, 0, false⟩ ∧
    (g.toggleCell x y).getCell x y =
      some ⟨!(g.cells y x).alive,
            if (g.cells y x).alive then 0 else 1,
            !(g.cells y x).alive⟩ ∧
    (g.randomize rand).cells y x =
      ⟨rand y x, if rand y x then 1 else 0, rand y x⟩ := by
  refine ⟨?_, ?_, ?_, ?_⟩
  · rw [Grid.setCellState_getCell,
      if_pos ⟨rfl, rfl, by omega, by omega, by omega, by omega⟩]
    simp
  · rw [Grid.setCellState_getCell,
      if_pos ⟨rfl, rfl, by omega, by omega, by omega, by omega⟩]
    simp
  · have hget : g.getCell x y = some (g.cells y x) := Grid.getCell_in g x y hx hy
    simp only [Grid.toggleCell, hget, Int.toNat_natCast]
    rw [Grid.getCell_setCell, if_pos ⟨rfl, rfl, hx, hy⟩]
    cases h : (g.cells y x).alive <;> simp [Cell.toggle, Cell.setState, h]
  · have h := (randomize_foldl_cells rand g.width g.height g rfl).2 y x
    rw [Grid.randomize, h, if_pos ⟨hy, hx⟩]

/-- Witness for C10 on the 2×2 grid whose cell `(0, 0)` is alive with
age 7: a direct edit resets the age to 1 resp. 0. -/
theorem setCellState_resets_age_witness :
    (agedGrid.cells 0 0).age = 7 ∧ (agedGrid.cells 0 0).alive = true ∧
    0 < agedGrid.width ∧ 0 < agedGrid.height ∧
    ((agedGrid.setCellState 0 0 true).getCell 0 0 = some ⟨true, 1, true⟩ ∧
     (agedGrid.setCellState 0 0 false).getCell 0 0 = some ⟨false, 0, false⟩ ∧
     (agedGrid.toggleCell 0 0).getCell 0 0 =
       some ⟨!(agedGrid.cells 0 0).alive,
             if (agedGrid.cells 0 0).alive then 0 else 1,
             !(agedGrid.cells 0 0).alive⟩ ∧
     (agedGrid.randomize (fun _ _ => false)).cells 0 0 =
       ⟨false, if false then 1 else 0, false⟩) :=
  ⟨by decide, by decide, by decide, by decide,
   setCellState_resets_age agedGrid 0 0 (by decide) (by decide) (fun _ _ => false)⟩
